import Mathlib

/-!
Verification of the Lizzy Alpha Write-stage scene-generation pipeline.

The pipeline driver is `run_complete_pipeline` in src/orchestrator.py; the
persistent tables (`story_outline`, `finalized_scenes`, `scene_drafts`,
`drafts`) are created in src/start.py; the interactive draft operations
(`save_scene_draft`, `request_revisions`, `manual_edit_session`,
`edit_existing_draft`) are in src/write.py.  The `LizzyWrite` helper methods
invoked by the orchestrator (`get_prev_scene_text`, `summarize_prev_if_long`,
`build_scene_prompt`, `generate_scene_text`, `save_finalized_scene`, ...) are
not present under src/ (only their caller is); those are modelled from the
spec, each marked in its doc comment.
-/

namespace Lizzy

/-- A row of the `story_outline` table (src/start.py, CREATE TABLE story_outline).
Column `id`/timestamps omitted; NULL text columns are modelled as `""`. -/
structure Scene where
  act : Nat
  scene : Nat
  scene_title : String
  location : String
  time_of_day : String
  characters_present : String
  scene_purpose : String
  key_events : String
  beat : String
  nudge : String
  emotional_beats : String
  dialogue_notes : String
  plot_threads : String
  notes : String
deriving DecidableEq

/-- A character row (src/start.py `characters`; spec section 3). -/
structure Character where
  name : String
  role : String
  description : String
  personality_traits : String
  backstory : String
  goals : String
  conflicts : String
  romantic_challenge : String
  lovable_trait : String
  comedic_flaw : String
deriving DecidableEq

/-- A BrainstormEntry row keyed by (act, scene, bucket_name) (spec section 3). -/
structure BrainRow where
  act : Nat
  scene : Nat
  bucket : String
  response : String
deriving DecidableEq

/-- A row of the `finalized_scenes` table (src/start.py lines 270-280:
columns act, scene, final_text, with UNIQUE(act, scene)). -/
structure FinalRow where
  act : Nat
  scene : Nat
  final_text : String
deriving DecidableEq

/-- A WriteRunRecord row: (act, scene, scene_title, prompt, output)
(spec section 3). -/
structure RunRow where
  act : Nat
  scene : Nat
  scene_title : String
  prompt : String
  output : String
deriving DecidableEq

/-- A SceneDraft row of the `scene_drafts` table (src/start.py):
(act, scene, draft_text, version, status). -/
structure SceneDraftRow where
  act : Nat
  scene : Nat
  version : Nat
  draft_text : String
  status : String
deriving DecidableEq

/-- The (act, scene) composite key of an outline scene. -/
def sceneKey (sc : Scene) : Nat × Nat := (sc.act, sc.scene)

/-- The (act, scene) key of a finalized-scene row. -/
def finKey (r : FinalRow) : Nat × Nat := (r.act, r.scene)

/-- Lexicographic (act, then scene) strict order on keys: the outline order. -/
abbrev keyLt (p q : Nat × Nat) : Prop :=
  p.1 < q.1 ∨ (p.1 = q.1 ∧ p.2 < q.2)

/-- Lexicographic (act, then scene) weak order on keys. -/
abbrev keyLe (p q : Nat × Nat) : Prop :=
  p.1 < q.1 ∨ (p.1 = q.1 ∧ p.2 ≤ q.2)

theorem keyLt_not_keyLe {p q : Nat × Nat} (h : keyLt p q) : ¬ keyLe q p := by
  rcases h with h | ⟨h1, h2⟩ <;> rintro (h' | ⟨h1', h2'⟩) <;> omega

/-- Modelled from the spec: `getPreviousSceneText` lookup of the finalized
text for a key — `get_prev_scene_text` is not under src/ (only its caller in
src/orchestrator.py line 382 is).  Reads the `final_text` of the first
`finalized_scenes` row matching (act, scene). -/
def lookupFinal (tbl : List FinalRow) (a s : Nat) : Option String :=
  (tbl.find? (fun r => r.act == a && r.scene == s)).map (·.final_text)

/-- Modelled from the spec: the maximum scene number among finalized rows of
one act (the `max scene number of act−1` fallback of section 4.1). -/
def maxSceneInAct (tbl : List FinalRow) (a : Nat) : Option Nat :=
  ((tbl.filter (fun r => r.act == a)).map (·.scene)).max?

/-- Modelled from the spec (section 4.1): `get_prev_scene_text` is not under
src/.  Reads FinalizedScene for (act, scene−1); if scene == 1 and act > 1,
falls back to the last scene (by max scene number) of act−1; otherwise
returns the empty string. -/
def get_prev_scene_text (tbl : List FinalRow) (a s : Nat) : String :=
  if 1 < s then (lookupFinal tbl a (s - 1)).getD ""
  else if s = 1 ∧ 1 < a then
    match maxSceneInAct tbl (a - 1) with
    | some m => (lookupFinal tbl (a - 1) m).getD ""
    | none => ""
  else ""

/-- Placeholder produced by the bounding function on empty input
(spec section 4.1). -/
def noPrevPlaceholder : String := "(No previous scene available.)"

/-- The fixed character cap of the previous-scene bounding function. -/
def prevCap : Nat := 2500

/-- The trailing ellipsis marker appended on hard truncation. -/
def ellipsisMarker : String := "..."

/-- Modelled from the spec (section 4.1): `summarize_prev_if_long` is not
under src/ (only its caller in src/orchestrator.py line 382 is).  Empty input
yields the placeholder; non-empty input longer than the 2500-character cap is
hard-truncated at the cap with a trailing ellipsis marker. -/
def summarize_prev_if_long (s : String) : String :=
  if s.data = [] then noPrevPlaceholder
  else if s.data.length ≤ prevCap then s
  else ⟨s.data.take prevCap ++ ellipsisMarker.data⟩

/-- The descriptive fields of a scene in the fixed order of spec section 4.1
(title, location, time, characters, purpose, events, emotional beats,
dialogue notes, beat, direction/nudge, plot threads, notes). -/
def sceneFields (sc : Scene) : List String :=
  [sc.scene_title, sc.location, sc.time_of_day, sc.characters_present,
   sc.scene_purpose, sc.key_events, sc.emotional_beats, sc.dialogue_notes,
   sc.beat, sc.nudge, sc.plot_threads, sc.notes]

/-- One line for a field: omitted entirely when the field is empty. -/
def optLine (f : String) : List String := if f = "" then [] else [f]

/-- Modelled from the spec (section 4.1): `synthesizeSceneContext` is not
under src/.  The lines of the scene-context digest: only the non-empty
descriptive fields, one per line, in the fixed field order. -/
def contextLines (sc : Scene) : List String :=
  optLine sc.scene_title ++ optLine sc.location ++ optLine sc.time_of_day ++
  optLine sc.characters_present ++ optLine sc.scene_purpose ++
  optLine sc.key_events ++ optLine sc.emotional_beats ++
  optLine sc.dialogue_notes ++ optLine sc.beat ++ optLine sc.nudge ++
  optLine sc.plot_threads ++ optLine sc.notes

/-- Modelled from the spec (section 4.1): the scene-context digest string. -/
def synthesizeSceneContext (sc : Scene) : String :=
  String.intercalate "\n" (contextLines sc)

theorem optLine_eq_filter (x : String) (l : List String) :
    List.filter (fun f => !(f == "")) (x :: l) =
      optLine x ++ List.filter (fun f => !(f == "")) l := by
  by_cases hx : x = "" <;> simp [optLine, hx, List.filter_cons]

/-- Looks up an outline scene by its (act, scene) key. -/
def findScene (outline : List Scene) (a s : Nat) : Option Scene :=
  outline.find? (fun sc => sc.act == a && sc.scene == s)

/-- The minimum scene number among the outline rows of one act. -/
def minSceneInAct (outline : List Scene) (a : Nat) : Option Nat :=
  ((outline.filter (fun sc => sc.act == a)).map (·.scene)).min?

/-- Modelled from the spec (section 4.1): `get_next_scene_outline_desc` is
not under src/ (only its caller in src/orchestrator.py line 384 is).  Reads
SceneOutline (act, scene+1); if absent, tries the first scene (min scene
number) of act+1; if still absent, returns the empty string.  Uses the same
non-empty-only field concatenation as `synthesizeSceneContext`. -/
def get_next_scene_outline_desc (outline : List Scene) (a s : Nat) : String :=
  match findScene outline a (s + 1) with
  | some sc => synthesizeSceneContext sc
  | none =>
    match minSceneInAct outline (a + 1) with
    | some m =>
      match findScene outline (a + 1) m with
      | some sc => synthesizeSceneContext sc
      | none => ""
    | none => ""

/-- One line of the outline snapshot: a two-character marker flag on the
current scene, then act, scene and title (or Untitled). -/
def snapshotLine (curAct curScene : Nat) (sc : Scene) : String :=
  (if sc.act = curAct ∧ sc.scene = curScene then ">>" else "  ") ++
    " Act " ++ toString sc.act ++ ", Scene " ++ toString sc.scene ++ " - " ++
    (if sc.scene_title = "" then "Untitled" else sc.scene_title)

/-- The outline-snapshot character cap (spec section 4.1, maxChars = 1200). -/
def snapshotCap : Nat := 1200

/-- Modelled from the spec (section 4.1): `make_outline_snapshot` is not
under src/ (only its caller in src/orchestrator.py line 383 is).  One line
per scene in full outline order, current scene marked; hard-truncated at
1200 characters with a truncation marker. -/
def make_outline_snapshot (scenes : List Scene) (a s : Nat) : String :=
  let txt := String.intercalate "\n" (scenes.map (snapshotLine a s))
  if txt.data.length ≤ snapshotCap then txt
  else ⟨txt.data.take snapshotCap ++ ("...[truncated]" : String).data⟩

/-- The distinct buckets having brainstorm rows for one scene, in first
appearance order. -/
def bucketsFor (tbl : List BrainRow) (a s : Nat) : List String :=
  ((tbl.filter (fun r => r.act == a && r.scene == s)).map (·.bucket)).dedup

/-- Modelled from the spec (section 4.1, `fetchBrainstormByBucket`):
`get_brainstorm_for_scene` is not under src/ (only its caller in
src/orchestrator.py line 380 is).  Groups all BrainstormEntry rows for the
scene by bucket, concatenating multiple rows per bucket with blank-line
separation; empty when no rows exist. -/
def get_brainstorm_for_scene (tbl : List BrainRow) (a s : Nat) :
    List (String × String) :=
  (bucketsFor tbl a s).map (fun b =>
    (b, String.intercalate "\n\n"
      ((tbl.filter (fun r => r.act == a && r.scene == s && r.bucket == b)).map
        (·.response))))

/-- Looks up a project-metadata value by key. -/
def lookupMeta (md : List (String × String)) (k : String) : Option String :=
  (md.find? (fun p => p.1 == k)).map (·.2)

/-- The fixed per-bucket expertise framing (spec section 4.2, item 6). -/
def bucketGuidance (b : String) : String :=
  if b == "books" then
    "books: apply story structure and pacing insight."
  else if b == "scripts" then
    "scripts: compare against romantic comedy tropes."
  else if b == "plays" then
    "plays: lean on dramatic irony and heightened language."
  else b ++ ": provide creative insight."

/-- The fixed tone-preset block (spec section 4.2, item 1). -/
def tonePresetBlock : String :=
  "TONE PRESET: golden era romantic comedy. Favor warmth, wit, and earned sentiment. Build scenes on reversals and chemistry-driven banter.\n"

/-- Continuity locks: POV and tense from metadata with defaults
(spec section 4.2, item 2). -/
def continuityLocks (md : List (String × String)) : String :=
  "CONTINUITY LOCKS:\nPoint of view: " ++
    ((lookupMeta md "pov").getD "third-person limited") ++
    "\nTense: " ++ ((lookupMeta md "tense").getD "past") ++
    "\nCharacter names and the current scene location and time are immutable facts; do not alter them.\n"

/-- The character roster digest (spec section 4.2, item 3). -/
def characterDigest (chars : List Character) : String :=
  String.intercalate "\n" (chars.map (fun c =>
    c.name ++ " (" ++ c.role ++ "): " ++ c.description ++
      " | challenge: " ++ c.romantic_challenge ++
      " | lovable: " ++ c.lovable_trait ++
      " | flaw: " ++ c.comedic_flaw))

/-- The DO list and DONT list with format-specific structural rules
(spec section 4.2, item 9). -/
def doDontBlock (fmt : String) : String :=
  "DO: preserve POV, tense and scene facts; keep emotional continuity with the previous scene; foreshadow the next scene; give each character a distinct voice.\nDONT: introduce new named characters; alter established facts; copy brainstorm text verbatim.\n" ++
    (if fmt == "screenplay" then
      "FORMAT: standard screenplay sluglines, character cues and action lines; no camera directions.\n"
    else
      "FORMAT: continuous prose paragraphs only; no headers.\n")

/-- Modelled from the spec (section 4.2): `build_scene_prompt` is not under
src/ (only its caller in src/orchestrator.py lines 387-393 is).  Combines the
assembled context with style, tone, format and easter-egg configuration into
one prompt string with the fixed ten-section structure. -/
def build_scene_prompt (md : List (String × String)) (chars : List Character)
    (sc : Scene) (bucketContext : List (String × String))
    (outlineSnapshot prevText nextDesc style tone fmt easterEgg : String)
    (minWords maxWords : Nat) : String :=
  tonePresetBlock ++
  continuityLocks md ++
  "CHARACTERS:\n" ++ characterDigest chars ++ "\n" ++
  "SCENE CONTEXT:\n" ++ synthesizeSceneContext sc ++ "\n" ++
  "PREVIOUS SCENE:\n" ++ prevText ++ "\n" ++
  "OUTLINE SNAPSHOT:\n" ++ outlineSnapshot ++ "\n" ++
  "NEXT SCENE:\n" ++
    (if nextDesc = "" then "(No next scene listed.)" else nextDesc) ++ "\n" ++
  "GUIDANCE:\n" ++
    String.intercalate "\n" (bucketContext.map (fun p => bucketGuidance p.1)) ++
    "\n" ++
  "BRAINSTORM (inspiration only; never quote or closely paraphrase):\n" ++
    String.intercalate "\n"
      (bucketContext.map (fun p => p.1 ++ ":\n" ++ p.2)) ++ "\n" ++
  "Style: " ++ style ++ ". Tone: " ++ tone ++ ". Format: " ++ fmt ++
    ". Target length: " ++ toString minWords ++ " to " ++ toString maxWords ++
    " words." ++
    (if easterEgg = "" then "" else "\nMotif: " ++ easterEgg) ++ "\n" ++
  doDontBlock fmt ++
  "Write one complete scene now. Plan silently first; output only the scene content.\n"

/-- The sentinel error string embedding a generation-failure reason
(spec section 4.3). -/
def errorSentinel (reason : String) : String :=
  "[Generation Error: " ++ reason ++ "]"

/-- Modelled from the spec (section 4.3): `generate_scene_text` is not under
src/ (only its caller in src/orchestrator.py line 396 is).  Wraps one
external text-generation call (the oracle); on any failure it returns the
sentinel error string embedding the failure reason rather than raising. -/
def generate_scene_text (oracle : String → Except String String)
    (prompt : String) : String :=
  match oracle prompt with
  | .ok t => t
  | .error e => errorSentinel e

/-- Modelled from the spec (sections 3 and 4.4): `save_finalized_scene` is
not under src/ (only its caller in src/orchestrator.py line 398 is).  Upsert
keyed by (act, scene) — REPLACE semantics over the `finalized_scenes` table,
whose UNIQUE(act, scene) constraint is in src/start.py. -/
def save_finalized_scene (tbl : List FinalRow) (a s : Nat) (text : String) :
    List FinalRow :=
  tbl.filter (fun r => !(r.act == a && r.scene == s)) ++ [⟨a, s, text⟩]

/-- The next SceneDraft version for a scene: one more than the maximum
version already recorded for that (act, scene) (spec section 4.4). -/
def nextDraftVersion (tbl : List SceneDraftRow) (a s : Nat) : Nat :=
  ((tbl.filter (fun r => r.act == a && r.scene == s)).map (·.version)).foldr
    Nat.max 0 + 1

/-- The project store visible to one pipeline run: the outline rows (as
returned by `SELECT * FROM story_outline ORDER BY act, scene`), the
brainstorm rows, and the three write-side tables. -/
structure Store where
  outline : List Scene
  brainstorm : List BrainRow
  runlog : List RunRow
  scene_drafts : List SceneDraftRow
  finalized : List FinalRow
deriving DecidableEq

/-- The writer configuration set by the orchestrator before the loop
(src/orchestrator.py lines 362-364: writing_style, tone, easter_egg; format
per spec section 4.2). -/
structure WriterConfig where
  writing_style : String
  tone : String
  fmt : String
  easter_egg : String

/-- The fixed inputs of one pipeline run: the external generation oracle
(spec section 4.3 boundary) and the data loaded before the loop
(src/orchestrator.py lines 367-369). -/
structure PipelineEnv where
  oracle : String → Except String String
  cfg : WriterConfig
  metadata : List (String × String)
  characters : List Character

/-- Observable events of a pipeline run, in the order they happen:
a generation attempt, then the draft write, then the finalized write
(src/orchestrator.py lines 396-398). -/
inductive Event where
  | genAttempt (act scene : Nat)
  | draftWrite (act scene : Nat)
  | finalWrite (act scene : Nat) (text : String)
deriving DecidableEq

/-- The prompt built for one scene, exactly as assembled in the loop body of
`run_complete_pipeline` (src/orchestrator.py lines 378-393): brainstorm
context, bounded previous-scene text, outline snapshot and next-scene
description feed `build_scene_prompt` with min 700 / max 900 words. -/
def promptFor (env : PipelineEnv) (scenesList : List Scene)
    (fin : List FinalRow) (brain : List BrainRow) (sc : Scene) : String :=
  build_scene_prompt env.metadata env.characters sc
    (get_brainstorm_for_scene brain sc.act sc.scene)
    (make_outline_snapshot scenesList sc.act sc.scene)
    (summarize_prev_if_long (get_prev_scene_text fin sc.act sc.scene))
    (get_next_scene_outline_desc scenesList sc.act sc.scene)
    env.cfg.writing_style env.cfg.tone env.cfg.fmt env.cfg.easter_egg 700 900

/-- The text obtained for one scene: the oracle output, or the error
sentinel (src/orchestrator.py line 396 via `generate_scene_text`). -/
def sceneTextFor (env : PipelineEnv) (scenesList : List Scene) (st : Store)
    (sc : Scene) : String :=
  generate_scene_text env.oracle (promptFor env scenesList st.finalized st.brainstorm sc)

/-- The store after one loop iteration: the run-log row and the draft row are
appended (spec section 4.4, via the `save_scene_draft` call at
src/orchestrator.py line 397, which also receives the prompt), and the
finalized row is upserted (line 398). -/
def applyScene (env : PipelineEnv) (scenesList : List Scene) (st : Store)
    (sc : Scene) : Store :=
  let text := sceneTextFor env scenesList st sc
  { st with
    runlog := st.runlog ++
      [⟨sc.act, sc.scene, sc.scene_title,
        promptFor env scenesList st.finalized st.brainstorm sc, text⟩],
    scene_drafts := st.scene_drafts ++
      [⟨sc.act, sc.scene, nextDraftVersion st.scene_drafts sc.act sc.scene,
        text, "draft"⟩],
    finalized := save_finalized_scene st.finalized sc.act sc.scene text }

/-- The three events of one loop iteration, in program order. -/
def stepEvents (env : PipelineEnv) (scenesList : List Scene) (st : Store)
    (sc : Scene) : List Event :=
  [Event.genAttempt sc.act sc.scene, Event.draftWrite sc.act sc.scene,
   Event.finalWrite sc.act sc.scene (sceneTextFor env scenesList st sc)]

/-- One iteration of the scene loop (src/orchestrator.py lines 373-400):
state change plus the events it emits. -/
def write_one_scene (env : PipelineEnv) (scenesList : List Scene) (st : Store)
    (sc : Scene) : Store × List Event :=
  (applyScene env scenesList st sc, stepEvents env scenesList st sc)

/-- The scene loop of `run_complete_pipeline` (src/orchestrator.py lines
373-400): scenes are processed one after the other, each iteration finishing
its writes before the next scene is touched. -/
def run_scenes (env : PipelineEnv) (scenesList : List Scene) :
    List Scene → Store → Store × List Event
  | [], st => (st, [])
  | sc :: rest, st =>
    ((run_scenes env scenesList rest (applyScene env scenesList st sc)).1,
     stepEvents env scenesList st sc ++
       (run_scenes env scenesList rest (applyScene env scenesList st sc)).2)

/-- Modelled from the spec (section 6): `get_story_outline` is not under
src/ (only its caller in src/orchestrator.py line 369 is).  It returns the
story_outline rows ordered by (act, scene); `Store.outline` holds the rows in
that returned order, and theorems that depend on the ordering state it as a
hypothesis justified by the ORDER BY clause and the UNIQUE(act, scene)
constraint of src/start.py. -/
def get_story_outline (st : Store) : List Scene := st.outline

/-- The Write step of `run_complete_pipeline` (src/orchestrator.py lines
351-401): fetch the outline, then write every scene in the order returned.
No brainstorm-coverage check appears anywhere before or inside the loop. -/
def run_complete_pipeline (env : PipelineEnv) (st : Store) :
    Store × List Event :=
  run_scenes env (get_story_outline st) (get_story_outline st) st

/-- A row of the `drafts` table (src/start.py): id (autoincrement primary
key), version, title, content, word_count, completion_status, notes. -/
structure DraftRow where
  id : Nat
  version : Nat
  title : String
  content : String
  word_count : Nat
  completion_status : String
  notes : String
deriving DecidableEq

/-- SELECT MAX(id) FROM drafts (0 on an empty table). -/
def maxDraftId (tbl : List DraftRow) : Nat :=
  (tbl.map (·.id)).foldr Nat.max 0

/-- Python `len(content.split())`: whitespace-separated word count
(src/write.py line 860). -/
def wordCount (s : String) : Nat :=
  ((s.split Char.isWhitespace).filter (fun w => !(w == ""))).length

/-- The draft title computed by `save_scene_draft` (src/write.py lines
858-859): `"Scene: "` plus the scene title, falling back to
`"Act a, Scene s"`. -/
def draftTitle (sc : Scene) : String :=
  "Scene: " ++
    (if sc.scene_title = "" then
      "Act " ++ toString sc.act ++ ", Scene " ++ toString sc.scene
    else sc.scene_title)

/-- `save_scene_draft` (src/write.py lines 854-868): a single INSERT into
`drafts` with the literal version 1, status first_draft, computed word count
and a style note.  The new row takes the next autoincrement id. -/
def save_scene_draft (tbl : List DraftRow) (sc : Scene)
    (content styleName : String) : List DraftRow :=
  tbl ++ [⟨maxDraftId tbl + 1, 1, draftTitle sc, content, wordCount content,
    "first_draft", "Style: " ++ styleName⟩]

/-- The shared UPDATE of `request_revisions` and `manual_edit_session`
(src/write.py lines 964-970 and 998-1004): SET content and append to notes
WHERE id = (SELECT MAX(id) FROM drafts). -/
def updateLatestDraft (tbl : List DraftRow) (newContent notesSuffix : String) :
    List DraftRow :=
  tbl.map (fun r =>
    if r.id = maxDraftId tbl then
      { r with content := newContent, notes := r.notes ++ notesSuffix }
    else r)

/-- The revision prompt `request_revisions` sends to the external model
(src/write.py lines 938-954). -/
def revisionPrompt (originalContent revisionNotes : String) : String :=
  "Revise the following draft based on the user feedback:\n\nORIGINAL DRAFT:\n" ++
    originalContent ++ "\n\nREVISION REQUESTS:\n" ++ revisionNotes ++
    "\n\nREVISED DRAFT:\n"

/-- `request_revisions` (src/write.py lines 932-973): obtains revised content
from the external model, then UPDATEs the row with MAX(id), appending a
revision note.  The revision oracle stands for `gpt_4o_mini_complete`. -/
def request_revisions (oracle : String → String) (tbl : List DraftRow)
    (originalContent revisionNotes : String) : List DraftRow :=
  updateLatestDraft tbl (oracle (revisionPrompt originalContent revisionNotes))
    ("\n\nRevision: " ++ revisionNotes)

/-- The line-editing loop of `manual_edit_session` (src/write.py lines
982-995): per original line one user input; SAVE stops, empty keeps the
original line, anything else replaces it.  Exhausted input is modelled as a
stop. -/
def editLines : List String → List String → List String
  | [], _ => []
  | _ :: _, [] => []
  | l :: ls, i :: is =>
    if i.trim.toUpper = "SAVE" then []
    else if i.trim = "" then l :: editLines ls is
    else i.trim :: editLines ls is

/-- The edited content assembled from the editing loop
(src/write.py line 995). -/
def manualEdit (content : String) (inputs : List String) : String :=
  String.intercalate "\n" (editLines (content.splitOn "\n") inputs)

/-- `manual_edit_session` (src/write.py lines 975-1006): edits the given
draft content line by line, then UPDATEs the row with MAX(id), appending a
manual-edit note. -/
def manual_edit_session (tbl : List DraftRow) (draftContent : String)
    (inputs : List String) : List DraftRow :=
  updateLatestDraft tbl (manualEdit draftContent inputs)
    "\n\nManually edited"

/-- `edit_existing_draft` (src/write.py lines 1008-1042), menu choice 1
(view and edit content): looks up the selected draft by id and starts a
manual edit session on that draft content. -/
def edit_existing_draft (tbl : List DraftRow) (draftId : Nat)
    (inputs : List String) : List DraftRow :=
  match tbl.find? (fun r => r.id == draftId) with
  | none => tbl
  | some d => manual_edit_session tbl d.content inputs

theorem keyLt_irrefl (p : Nat × Nat) : ¬ keyLt p p := by
  rintro (h | ⟨_, h⟩) <;> omega

theorem run_scenes_outline (env : PipelineEnv) (sl : List Scene) :
    ∀ (l : List Scene) (st : Store),
      ((run_scenes env sl l st).1).outline = st.outline := by
  intro l
  induction l with
  | nil => intro st; rfl
  | cons sc rest ih => intro st; simp [run_scenes, ih, applyScene]

theorem run_scenes_brainstorm (env : PipelineEnv) (sl : List Scene) :
    ∀ (l : List Scene) (st : Store),
      ((run_scenes env sl l st).1).brainstorm = st.brainstorm := by
  intro l
  induction l with
  | nil => intro st; rfl
  | cons sc rest ih => intro st; simp [run_scenes, ih, applyScene]

theorem run_scenes_trace_length (env : PipelineEnv) (sl : List Scene) :
    ∀ (l : List Scene) (st : Store),
      ((run_scenes env sl l st).2).length = 3 * l.length := by
  intro l
  induction l with
  | nil => intro st; rfl
  | cons sc rest ih =>
    intro st
    simp [run_scenes, stepEvents, ih]
    ring

theorem run_scenes_trace_get (env : PipelineEnv) (sl : List Scene) :
    ∀ (l : List Scene) (st : Store) (i : Nat) (hi : i < l.length),
      ((run_scenes env sl l st).2)[3 * i]? =
          some (Event.genAttempt l[i].act l[i].scene)
        ∧ ((run_scenes env sl l st).2)[3 * i + 1]? =
          some (Event.draftWrite l[i].act l[i].scene)
        ∧ ∃ t, ((run_scenes env sl l st).2)[3 * i + 2]? =
          some (Event.finalWrite l[i].act l[i].scene t) := by
  intro l
  induction l with
  | nil => intro st i hi; exact absurd hi (by simp)
  | cons sc rest ih =>
    intro st i hi
    cases i with
    | zero =>
      refine ⟨?_, ?_, ⟨sceneTextFor env sl st sc, ?_⟩⟩ <;>
        simp [run_scenes, stepEvents]
    | succ i =>
      have hi' : i < rest.length := by simpa using hi
      obtain ⟨h1, h2, ⟨t, h3⟩⟩ := ih (applyScene env sl st sc) i hi'
      have hstep :
          (run_scenes env sl (sc :: rest) st).2 =
            stepEvents env sl st sc ++
              (run_scenes env sl rest (applyScene env sl st sc)).2 := rfl
      have hlen : (stepEvents env sl st sc).length = 3 := rfl
      refine ⟨?_, ?_, ⟨t, ?_⟩⟩ <;>
        rw [hstep, List.getElem?_append_right (by rw [hlen]; omega)] <;>
        rw [hlen]
      · have he : 3 * (i + 1) - 3 = 3 * i := by omega
        rw [he, h1]
        simp
      · have he : 3 * (i + 1) + 1 - 3 = 3 * i + 1 := by omega
        rw [he, h2]
        simp
      · have he : 3 * (i + 1) + 2 - 3 = 3 * i + 2 := by omega
        rw [he, h3]
        simp

theorem run_scenes_trace_occ (env : PipelineEnv) (sl : List Scene) :
    ∀ (l : List Scene) (st : Store) (q a s : Nat),
      ((run_scenes env sl l st).2)[q]? = some (Event.genAttempt a s) →
      ∃ i, ∃ hi : i < l.length,
        q = 3 * i ∧ l[i].act = a ∧ l[i].scene = s := by
  intro l
  induction l with
  | nil => intro st q a s h; simp [run_scenes] at h
  | cons sc rest ih =>
    intro st q a s h
    have hstep :
        (run_scenes env sl (sc :: rest) st).2 =
          Event.genAttempt sc.act sc.scene :: Event.draftWrite sc.act sc.scene ::
            Event.finalWrite sc.act sc.scene (sceneTextFor env sl st sc) ::
            (run_scenes env sl rest (applyScene env sl st sc)).2 := rfl
    rw [hstep] at h
    rcases q with _ | _ | _ | q
    · simp at h
      exact ⟨0, by simp, by simp [h]⟩
    · simp at h
    · simp at h
    · simp only [List.getElem?_cons_succ] at h
      obtain ⟨i, hi, hq, ha, hs⟩ := ih (applyScene env sl st sc) q a s h
      exact ⟨i + 1, by simpa using Nat.succ_lt_succ hi, by omega,
        by simpa using ha, by simpa using hs⟩

/-- C1: for every pipeline run, whenever outline position i strictly
precedes outline position j in (act ascending, then scene ascending) order,
every generation attempt for scene j in the run trace happens strictly after
the FinalizedScene write for scene i: the loop of `run_complete_pipeline`
iterates scenes strictly sequentially in outline order. -/
theorem C1_generation_strictly_after_predecessor_final_write
    (env : PipelineEnv) (st : Store)
    (hsorted : st.outline.Pairwise (fun x y => keyLe (sceneKey x) (sceneKey y)))
    (hnodup : (st.outline.map sceneKey).Nodup)
    (i j : Nat) (hi : i < st.outline.length) (hj : j < st.outline.length)
    (hlt : keyLt (sceneKey st.outline[i]) (sceneKey st.outline[j]))
    (q : Nat)
    (hq : ((run_complete_pipeline env st).2)[q]? =
      some (Event.genAttempt st.outline[j].act st.outline[j].scene)) :
    ∃ p t, p < q ∧ ((run_complete_pipeline env st).2)[p]? =
      some (Event.finalWrite st.outline[i].act st.outline[i].scene t) := by
  have hq' : ((run_scenes env st.outline st.outline st).2)[q]? =
      some (Event.genAttempt st.outline[j].act st.outline[j].scene) := hq
  obtain ⟨i', hi', hq3, ha, hs⟩ :=
    run_scenes_trace_occ env st.outline st.outline st q _ _ hq'
  have hkey : sceneKey st.outline[i'] = sceneKey st.outline[j] := by
    simp only [sceneKey]
    rw [ha, hs]
  have hmlen : (st.outline.map sceneKey).length = st.outline.length :=
    List.length_map _ _
  have hij : i' = j :=
    (@List.Nodup.getElem_inj_iff _ _ hnodup i' (by omega) j (by omega)).mp
      (by rw [List.getElem_map, List.getElem_map]; exact hkey)
  subst hij
  have hij2 : i < i' := by
    rcases Nat.lt_trichotomy i i' with h | h | h
    · exact h
    · subst h
      exact absurd hlt (keyLt_irrefl _)
    · have hle : keyLe (sceneKey st.outline[i']) (sceneKey st.outline[i]) := by
        have := (List.pairwise_iff_get.mp hsorted) ⟨i', hi'⟩ ⟨i, hi⟩ h
        simpa using this
      exact absurd hle (keyLt_not_keyLe hlt)
  obtain ⟨hg, hd, ⟨t, hf⟩⟩ :=
    run_scenes_trace_get env st.outline st.outline st i hi
  exact ⟨3 * i + 2, t, by omega, hf⟩

/-- A concrete outline scene used by witnesses: Act 1, Scene 1. -/
def scA : Scene :=
  ⟨1, 1, "Opening", "Cafe", "", "", "setup", "they meet", "", "", "", "", "", ""⟩

/-- A concrete outline scene used by witnesses: Act 1, Scene 2. -/
def scB : Scene :=
  ⟨1, 2, "Response", "", "", "", "", "", "", "", "", "", "", ""⟩

/-- A concrete pipeline environment whose oracle always succeeds. -/
def okEnv : PipelineEnv :=
  ⟨fun _ => Except.ok "SCENE TEXT",
   ⟨"cinematic", "witty and heartfelt", "prose", ""⟩,
   [("pov", "third-person limited")], []⟩

/-- A concrete two-scene project store with full brainstorm coverage. -/
def demoStore : Store :=
  ⟨[scA, scB], [⟨1, 1, "books", "idea one"⟩, ⟨1, 2, "books", "idea two"⟩],
   [], [], []⟩

/-- C1 witness: on the concrete two-scene store, the only generation attempt
for scene (1,2) sits at trace position 3, and the finalized write for scene
(1,1) occurs strictly before it. -/
theorem C1_witness :
    ∃ p t, p < 3 ∧ ((run_complete_pipeline okEnv demoStore).2)[p]? =
      some (Event.finalWrite 1 1 t) := by
  have h := C1_generation_strictly_after_predecessor_final_write okEnv
    demoStore (by decide) (by decide) 0 1 (by decide) (by decide) (by decide)
    3 (by decide)
  exact h

/-- A concrete store in which outline scene (1,2) has zero brainstorm rows
while scene (1,1) is covered. -/
def uncoveredStore : Store :=
  ⟨[scA, scB], [⟨1, 1, "books", "idea one"⟩], [], [], []⟩

/-- C2 counterexample: on a store where outline scene (1,2) has zero
BrainstormEntry rows, `run_complete_pipeline` does not fail before
generation: it attempts generation for (1,2) and writes two run-log rows,
two draft rows and two finalized rows — not zero — so no up-front coverage
precondition exists. -/
theorem C2_counterexample :
    (uncoveredStore.brainstorm.filter (fun r => r.act == 1 && r.scene == 2)) = []
    ∧ ((run_complete_pipeline okEnv uncoveredStore).1.finalized).length = 2
    ∧ Event.genAttempt 1 2 ∈ (run_complete_pipeline okEnv uncoveredStore).2
    ∧ ((run_complete_pipeline okEnv uncoveredStore).1.runlog).length = 2
    ∧ ((run_complete_pipeline okEnv uncoveredStore).1.scene_drafts).length = 2 := by
  refine ⟨by decide, by decide, by decide, by decide, by decide⟩

/-- C2 (amended): the pipeline enforces no brainstorm-coverage precondition
at all — for every store, regardless of coverage, it attempts generation for
every outline scene and performs the draft and finalized writes for every
scene; a scene with zero BrainstormEntry rows simply receives an empty
brainstorm context instead of triggering an error. -/
theorem C2_amended_no_coverage_precondition (env : PipelineEnv) (st : Store) :
    ((run_complete_pipeline env st).2).length = 3 * st.outline.length
    ∧ (∀ i (hi : i < st.outline.length),
        ((run_complete_pipeline env st).2)[3 * i]? =
          some (Event.genAttempt st.outline[i].act st.outline[i].scene)
        ∧ ∃ t, ((run_complete_pipeline env st).2)[3 * i + 2]? =
          some (Event.finalWrite st.outline[i].act st.outline[i].scene t))
    ∧ (∀ (tbl : List BrainRow) (a s : Nat),
        tbl.filter (fun r => r.act == a && r.scene == s) = [] →
        get_brainstorm_for_scene tbl a s = []) := by
  refine ⟨run_scenes_trace_length env st.outline st.outline st, ?_, ?_⟩
  · intro i hi
    obtain ⟨hg, hd, hf⟩ :=
      run_scenes_trace_get env st.outline st.outline st i hi
    exact ⟨hg, hf⟩
  · intro tbl a s h
    simp [get_brainstorm_for_scene, bucketsFor, h]

/-- C2 (amended) witness: on the store missing coverage for (1,2), the run
still attempts all six events, generates scene (1,2), and that scene's
brainstorm context is empty. -/
theorem C2_amended_witness :
    ((run_complete_pipeline okEnv uncoveredStore).2).length = 6
    ∧ ((run_complete_pipeline okEnv uncoveredStore).2)[3]? =
      some (Event.genAttempt 1 2)
    ∧ get_brainstorm_for_scene uncoveredStore.brainstorm 1 2 = [] := by
  obtain ⟨h1, h2, h3⟩ := C2_amended_no_coverage_precondition okEnv uncoveredStore
  exact ⟨h1, (h2 1 (by decide)).1, h3 uncoveredStore.brainstorm 1 2 (by decide)⟩

/-- At most one `finalized_scenes` row per (act, scene) key: the invariant
the UNIQUE(act, scene) constraint of src/start.py expresses. -/
def atMostOnePerKey (tbl : List FinalRow) : Prop :=
  tbl.Pairwise (fun r r2 => finKey r ≠ finKey r2)

/-- Whether a finalized row's key is absent from a key list. -/
def keyAbsent (keys : List (Nat × Nat)) (r : FinalRow) : Bool :=
  decide (finKey r ∉ keys)

theorem save_finalized_scene_atMostOne (tbl : List FinalRow) (a s : Nat)
    (t : String) (h : atMostOnePerKey tbl) :
    atMostOnePerKey (save_finalized_scene tbl a s t) := by
  unfold atMostOnePerKey save_finalized_scene
  rw [List.pairwise_append]
  refine ⟨h.sublist (List.filter_sublist _), List.pairwise_singleton _ _, ?_⟩
  intro r hr r2 hr2
  rw [List.mem_singleton] at hr2
  subst hr2
  have hm := (List.mem_filter.mp hr).2
  simp only [Bool.not_eq_eq_eq_not, Bool.not_true, Bool.and_eq_false_imp,
    beq_eq_false_iff_ne, ne_eq, beq_iff_eq] at hm
  simp only [finKey, ne_eq, Prod.mk.injEq, not_and]
  intro ha hs
  by_cases hra : r.act = a
  · exact absurd hs (by simpa [hra] using hm)
  · exact hra ha

theorem applyScene_finalized (env : PipelineEnv) (sl : List Scene)
    (st : Store) (sc : Scene) :
    (applyScene env sl st sc).finalized =
      save_finalized_scene st.finalized sc.act sc.scene
        (sceneTextFor env sl st sc) := rfl

theorem run_scenes_finalized_atMostOne (env : PipelineEnv) (sl : List Scene) :
    ∀ (l : List Scene) (st : Store), atMostOnePerKey st.finalized →
      atMostOnePerKey ((run_scenes env sl l st).1.finalized) := by
  intro l
  induction l with
  | nil => intro st h; exact h
  | cons sc rest ih =>
    intro st h
    refine ih (applyScene env sl st sc) ?_
    rw [applyScene_finalized]
    exact save_finalized_scene_atMostOne _ _ _ _ h

theorem run_scenes_finalized_keys (env : PipelineEnv) (sl : List Scene) :
    ∀ (l : List Scene) (st : Store), (l.map sceneKey).Nodup →
      ((run_scenes env sl l st).1.finalized).map finKey =
        (st.finalized.filter (keyAbsent (l.map sceneKey))).map finKey ++
          l.map sceneKey := by
  intro l
  induction l with
  | nil =>
    intro st _
    have hp : st.finalized.filter (keyAbsent ([] : List (Nat × Nat))) =
        st.finalized := by
      rw [List.filter_eq_self]
      intro r _
      simp [keyAbsent]
    simp [run_scenes, hp]
  | cons sc rest ih =>
    intro st hnd
    rw [List.map_cons, List.nodup_cons] at hnd
    obtain ⟨hK, hnd'⟩ := hnd
    have hstep : (run_scenes env sl (sc :: rest) st).1 =
        (run_scenes env sl rest (applyScene env sl st sc)).1 := rfl
    rw [hstep, ih (applyScene env sl st sc) hnd', applyScene_finalized]
    unfold save_finalized_scene
    rw [List.filter_append, List.filter_filter]
    have hnew : List.filter (keyAbsent (rest.map sceneKey))
        [(⟨sc.act, sc.scene, sceneTextFor env sl st sc⟩ : FinalRow)] =
        [⟨sc.act, sc.scene, sceneTextFor env sl st sc⟩] := by
      simp only [List.filter_cons, List.filter_nil, keyAbsent]
      have : finKey (⟨sc.act, sc.scene, sceneTextFor env sl st sc⟩ : FinalRow)
          ∉ rest.map sceneKey := by
        simpa [finKey, sceneKey] using hK
      simp [this]
    rw [hnew]
    have hpred : st.finalized.filter
        (fun a => keyAbsent (rest.map sceneKey) a &&
          !(a.act == sc.act && a.scene == sc.scene)) =
        st.finalized.filter (keyAbsent (sceneKey sc :: rest.map sceneKey)) := by
      refine List.filter_congr ?_
      intro r _
      have hb : (!(r.act == sc.act && r.scene == sc.scene)) =
          decide (finKey r ≠ sceneKey sc) := by
        by_cases h1 : r.act = sc.act <;> by_cases h2 : r.scene = sc.scene <;>
          simp [finKey, sceneKey, Prod.ext_iff, h1, h2]
      rw [hb]
      by_cases h1 : finKey r = sceneKey sc <;>
        by_cases h2 : finKey r ∈ rest.map sceneKey <;>
          simp [keyAbsent, h1, h2, List.mem_cons]
    rw [hpred]
    simp [finKey, sceneKey]

theorem run_scenes_finalized_rows (env : PipelineEnv) (sl : List Scene) :
    ∀ (l : List Scene) (st : Store) (r : FinalRow),
      r ∈ ((run_scenes env sl l st).1.finalized) →
      (r ∈ st.finalized ∧ finKey r ∉ l.map sceneKey) ∨
        Event.finalWrite r.act r.scene r.final_text ∈
          (run_scenes env sl l st).2 := by
  intro l
  induction l with
  | nil => intro st r h; exact Or.inl ⟨h, by simp⟩
  | cons sc rest ih =>
    intro st r h
    have hsplit := ih (applyScene env sl st sc) r h
    have htr : (run_scenes env sl (sc :: rest) st).2 =
        stepEvents env sl st sc ++
          (run_scenes env sl rest (applyScene env sl st sc)).2 := rfl
    rcases hsplit with ⟨hmem, hnot⟩ | hev
    · rw [applyScene_finalized] at hmem
      unfold save_finalized_scene at hmem
      rcases List.mem_append.mp hmem with hf | hnew
      · left
        obtain ⟨hin, hp⟩ := List.mem_filter.mp hf
        refine ⟨hin, ?_⟩
        have hne : finKey r ≠ sceneKey sc := by
          simp only [Bool.not_eq_eq_eq_not, Bool.not_true,
            Bool.and_eq_false_imp, beq_eq_false_iff_ne, ne_eq,
            beq_iff_eq] at hp
          intro hc
          have hc' : r.act = sc.act ∧ r.scene = sc.scene := by
            simpa [finKey, sceneKey, Prod.ext_iff] using hc
          exact hp hc'.1 hc'.2
        simp only [List.map_cons, List.mem_cons]
        rintro (hc | hc)
        · exact hne hc
        · exact hnot hc
      · right
        rw [List.mem_singleton] at hnew
        subst hnew
        rw [htr]
        apply List.mem_append_left
        simp [stepEvents]
    · right
      rw [htr]
      exact List.mem_append_right _ hev

/-- C3: the FinalizedScene store keeps at most one row per (act, scene) key
at every point (each upsert preserves the invariant), and running the
pipeline twice over a fresh project leaves exactly one finalized row per
outline scene — each holding a text written by the second run's finalized
write, never an accumulation of rows. -/
theorem C3_finalized_upsert_latest_wins (env : PipelineEnv) (st : Store)
    (hnodup : (st.outline.map sceneKey).Nodup)
    (hempty : st.finalized = []) :
    (∀ (tbl : List FinalRow) (a s : Nat) (t : String),
      atMostOnePerKey tbl → atMostOnePerKey (save_finalized_scene tbl a s t))
    ∧ atMostOnePerKey ((run_complete_pipeline env st).1.finalized)
    ∧ atMostOnePerKey
        ((run_complete_pipeline env (run_complete_pipeline env st).1).1.finalized)
    ∧ ((run_complete_pipeline env
        (run_complete_pipeline env st).1).1.finalized).map finKey =
      st.outline.map sceneKey
    ∧ ∀ r ∈ (run_complete_pipeline env
        (run_complete_pipeline env st).1).1.finalized,
        Event.finalWrite r.act r.scene r.final_text ∈
          (run_complete_pipeline env (run_complete_pipeline env st).1).2 := by
  have houtl : ((run_complete_pipeline env st).1).outline = st.outline :=
    run_scenes_outline env st.outline st.outline st
  have hone : atMostOnePerKey ((run_complete_pipeline env st).1.finalized) :=
    run_scenes_finalized_atMostOne env st.outline st.outline st
      (by rw [hempty]; exact List.Pairwise.nil)
  have hkeys1 : ((run_complete_pipeline env st).1.finalized).map finKey =
      st.outline.map sceneKey := by
    have h := run_scenes_finalized_keys env st.outline st.outline st hnodup
    rw [hempty] at h
    simpa using h
  have hnodup1 : (((run_complete_pipeline env st).1).outline.map
      sceneKey).Nodup := by rw [houtl]; exact hnodup
  have hfempty : ((run_complete_pipeline env st).1.finalized).filter
      (keyAbsent (((run_complete_pipeline env st).1).outline.map sceneKey)) =
      [] := by
    rw [List.filter_eq_nil_iff]
    intro r hr
    have hmem : finKey r ∈ ((run_complete_pipeline env st).1.finalized).map
        finKey := List.mem_map_of_mem _ hr
    rw [hkeys1, ← houtl] at hmem
    simp [keyAbsent, hmem]
  have hkeys2 : ((run_complete_pipeline env
      (run_complete_pipeline env st).1).1.finalized).map finKey =
      st.outline.map sceneKey := by
    have h := run_scenes_finalized_keys env
      ((run_complete_pipeline env st).1).outline
      ((run_complete_pipeline env st).1).outline
      (run_complete_pipeline env st).1 hnodup1
    rw [hfempty] at h
    rw [← houtl]
    simpa using h
  refine ⟨fun tbl a s t h => save_finalized_scene_atMostOne tbl a s t h,
    hone, ?_, hkeys2, ?_⟩
  · exact run_scenes_finalized_atMostOne env _ _ _ hone
  · intro r hr
    rcases run_scenes_finalized_rows env
      ((run_complete_pipeline env st).1).outline
      ((run_complete_pipeline env st).1).outline
      (run_complete_pipeline env st).1 r hr with ⟨hmem, hnot⟩ | hev
    · exfalso
      have hmem2 : finKey r ∈ ((run_complete_pipeline env st).1.finalized).map
          finKey := List.mem_map_of_mem _ hmem
      rw [hkeys1, ← houtl] at hmem2
      exact hnot hmem2
    · exact hev

/-- C3 witness: on the concrete two-scene store, after two full runs the
finalized table holds exactly the keys (1,1) and (1,2), once each, and the
single-run result already satisfies the at-most-one-row-per-key invariant. -/
theorem C3_witness :
    ((run_complete_pipeline okEnv
      (run_complete_pipeline okEnv demoStore).1).1.finalized).map finKey =
      [(1, 1), (1, 2)]
    ∧ atMostOnePerKey ((run_complete_pipeline okEnv demoStore).1.finalized) := by
  obtain ⟨h1, h2, h3, h4, h5⟩ :=
    C3_finalized_upsert_latest_wins okEnv demoStore (by decide) rfl
  exact ⟨h4, h2⟩

theorem run_scenes_runlog_failing (cfg : WriterConfig)
    (md : List (String × String)) (chars : List Character) (e : String)
    (sl : List Scene) :
    ∀ (l : List Scene) (st : Store),
      ((run_scenes ⟨fun _ => Except.error e, cfg, md, chars⟩ sl l st).1.runlog).map
          (fun r => (r.act, r.scene, r.output)) =
        st.runlog.map (fun r => (r.act, r.scene, r.output)) ++
          l.map (fun sc => (sc.act, sc.scene, errorSentinel e)) := by
  intro l
  induction l with
  | nil => intro st; simp [run_scenes]
  | cons sc rest ih =>
    intro st
    have hstep : (run_scenes ⟨fun _ => Except.error e, cfg, md, chars⟩ sl
        (sc :: rest) st).1 =
        (run_scenes ⟨fun _ => Except.error e, cfg, md, chars⟩ sl rest
          (applyScene ⟨fun _ => Except.error e, cfg, md, chars⟩ sl st sc)).1 :=
      rfl
    rw [hstep, ih]
    simp [applyScene, sceneTextFor, generate_scene_text]

theorem run_scenes_drafts_failing (cfg : WriterConfig)
    (md : List (String × String)) (chars : List Character) (e : String)
    (sl : List Scene) :
    ∀ (l : List Scene) (st : Store),
      ((run_scenes ⟨fun _ => Except.error e, cfg, md, chars⟩ sl l st).1.scene_drafts).map
          (fun d => (d.act, d.scene, d.draft_text)) =
        st.scene_drafts.map (fun d => (d.act, d.scene, d.draft_text)) ++
          l.map (fun sc => (sc.act, sc.scene, errorSentinel e)) := by
  intro l
  induction l with
  | nil => intro st; simp [run_scenes]
  | cons sc rest ih =>
    intro st
    have hstep : (run_scenes ⟨fun _ => Except.error e, cfg, md, chars⟩ sl
        (sc :: rest) st).1 =
        (run_scenes ⟨fun _ => Except.error e, cfg, md, chars⟩ sl rest
          (applyScene ⟨fun _ => Except.error e, cfg, md, chars⟩ sl st sc)).1 :=
      rfl
    rw [hstep, ih]
    simp [applyScene, sceneTextFor, generate_scene_text]

theorem run_scenes_finalized_failing (cfg : WriterConfig)
    (md : List (String × String)) (chars : List Character) (e : String)
    (sl : List Scene) :
    ∀ (l : List Scene) (st : Store) (r : FinalRow),
      r ∈ (run_scenes ⟨fun _ => Except.error e, cfg, md, chars⟩ sl l st).1.finalized →
      r ∈ st.finalized ∨ r.final_text = errorSentinel e := by
  intro l
  induction l with
  | nil => intro st r h; exact Or.inl h
  | cons sc rest ih =>
    intro st r h
    rcases ih (applyScene ⟨fun _ => Except.error e, cfg, md, chars⟩ sl st sc)
        r h with hmem | hsent
    · rw [applyScene_finalized] at hmem
      unfold save_finalized_scene at hmem
      rcases List.mem_append.mp hmem with hf | hnew
      · exact Or.inl (List.mem_filter.mp hf).1
      · rw [List.mem_singleton] at hnew
        subst hnew
        exact Or.inr (by simp [sceneTextFor, generate_scene_text])
    · exact Or.inr hsent

/-- C4: when the external text-generation call fails, the pipeline receives
the sentinel error string embedding the failure reason instead of a raised
exception; the loop body persists that output through the same run-log,
draft and finalized writes as a successful output; and even with an oracle
failing on every scene the batch still processes every outline scene,
recording the sentinel in every run-log row, every draft row and every newly
finalized row. -/
theorem C4_failure_sentinel_persisted_batch_continues :
    (∀ (oracle : String → Except String String) (p e : String),
      oracle p = Except.error e →
        generate_scene_text oracle p = errorSentinel e)
    ∧ (∀ (env : PipelineEnv) (sl : List Scene) (st : Store) (sc : Scene),
        (write_one_scene env sl st sc).1.runlog = st.runlog ++
          [⟨sc.act, sc.scene, sc.scene_title,
            promptFor env sl st.finalized st.brainstorm sc,
            sceneTextFor env sl st sc⟩]
        ∧ (write_one_scene env sl st sc).1.scene_drafts = st.scene_drafts ++
          [⟨sc.act, sc.scene, nextDraftVersion st.scene_drafts sc.act sc.scene,
            sceneTextFor env sl st sc, "draft"⟩]
        ∧ (write_one_scene env sl st sc).1.finalized =
          save_finalized_scene st.finalized sc.act sc.scene
            (sceneTextFor env sl st sc))
    ∧ (∀ (cfg : WriterConfig) (md : List (String × String))
        (chars : List Character) (e : String) (st : Store),
        ((run_complete_pipeline ⟨fun _ => Except.error e, cfg, md, chars⟩ st).2).length =
          3 * st.outline.length
        ∧ ((run_complete_pipeline ⟨fun _ => Except.error e, cfg, md, chars⟩ st).1.runlog).map
            (fun r => (r.act, r.scene, r.output)) =
          st.runlog.map (fun r => (r.act, r.scene, r.output)) ++
            st.outline.map (fun sc => (sc.act, sc.scene, errorSentinel e))
        ∧ ((run_complete_pipeline ⟨fun _ => Except.error e, cfg, md, chars⟩ st).1.scene_drafts).map
            (fun d => (d.act, d.scene, d.draft_text)) =
          st.scene_drafts.map (fun d => (d.act, d.scene, d.draft_text)) ++
            st.outline.map (fun sc => (sc.act, sc.scene, errorSentinel e))
        ∧ ∀ r ∈ (run_complete_pipeline ⟨fun _ => Except.error e, cfg, md, chars⟩ st).1.finalized,
            r ∈ st.finalized ∨ r.final_text = errorSentinel e) := by
  refine ⟨?_, ?_, ?_⟩
  · intro oracle p e h
    simp [generate_scene_text, h]
  · intro env sl st sc
    exact ⟨rfl, rfl, rfl⟩
  · intro cfg md chars e st
    exact ⟨run_scenes_trace_length _ _ _ _,
      run_scenes_runlog_failing cfg md chars e st.outline st.outline st,
      run_scenes_drafts_failing cfg md chars e st.outline st.outline st,
      fun r hr =>
        run_scenes_finalized_failing cfg md chars e st.outline st.outline st
          r hr⟩

/-- A concrete pipeline environment whose oracle fails on every call. -/
def failDemoEnv : PipelineEnv :=
  ⟨fun _ => Except.error "quota exceeded",
   ⟨"cinematic", "witty and heartfelt", "prose", ""⟩, [], []⟩

/-- C4 witness: with an always-failing oracle on the concrete two-scene
store, the invoker returns the sentinel, and the run still emits all six
events and logs the sentinel for both scenes. -/
theorem C4_witness :
    generate_scene_text failDemoEnv.oracle "any prompt" =
      errorSentinel "quota exceeded"
    ∧ ((run_complete_pipeline failDemoEnv demoStore).2).length = 6
    ∧ ((run_complete_pipeline failDemoEnv demoStore).1.runlog).map
        (fun r => (r.act, r.scene, r.output)) =
      [(1, 1, errorSentinel "quota exceeded"),
       (1, 2, errorSentinel "quota exceeded")] := by
  obtain ⟨h1, h2, h3⟩ := C4_failure_sentinel_persisted_batch_continues
  obtain ⟨hl, hr, hd, hf⟩ :=
    h3 ⟨"cinematic", "witty and heartfelt", "prose", ""⟩ [] []
      "quota exceeded" demoStore
  exact ⟨h1 failDemoEnv.oracle "any prompt" "quota exceeded" rfl, hl, hr⟩

/-- C5 counterexample: act 1 has a finalized scene (the row (1,1)), yet the
previous-scene lookup for (2,1) returns the empty string, because the stored
finalized text itself is empty — so "non-empty whenever act−1 has any
finalized scene" does not hold as stated. -/
theorem C5_counterexample :
    get_prev_scene_text [⟨1, 1, ""⟩] 2 1 = ""
    ∧ (([⟨1, 1, ""⟩] : List FinalRow).filter (fun r => r.act == 1)) ≠ [] := by
  exact ⟨by decide, by decide⟩

/-- C5 (amended): for scene > 1 the lookup reads the finalized text of
(act, scene−1); for scene 1 of act > 1 it falls back to (act−1, m) with m
the maximum finalized scene number of act−1, and is non-empty whenever that
stored text is non-empty; in every remaining case (scene 0, act ≤ 1, or an
act−1 with no finalized rows) it returns the empty string. -/
theorem C5_prev_scene_resolution :
    (∀ (tbl : List FinalRow) (a s : Nat), 1 < s →
      get_prev_scene_text tbl a s = (lookupFinal tbl a (s - 1)).getD "")
    ∧ (∀ (tbl : List FinalRow) (a m : Nat), 1 < a →
        maxSceneInAct tbl (a - 1) = some m →
        get_prev_scene_text tbl a 1 = (lookupFinal tbl (a - 1) m).getD "")
    ∧ (∀ (tbl : List FinalRow) (a m : Nat) (t : String), 1 < a →
        maxSceneInAct tbl (a - 1) = some m →
        lookupFinal tbl (a - 1) m = some t → t ≠ "" →
        get_prev_scene_text tbl a 1 ≠ "")
    ∧ (∀ (tbl : List FinalRow) (a : Nat), ¬ 1 < a →
        get_prev_scene_text tbl a 1 = "")
    ∧ (∀ (tbl : List FinalRow) (a : Nat), get_prev_scene_text tbl a 0 = "")
    ∧ (∀ (tbl : List FinalRow) (a : Nat), 1 < a →
        maxSceneInAct tbl (a - 1) = none →
        get_prev_scene_text tbl a 1 = "") := by
  refine ⟨?_, ?_, ?_, ?_, ?_, ?_⟩
  · intro tbl a s h
    simp [get_prev_scene_text, h]
  · intro tbl a m ha hm
    simp [get_prev_scene_text, ha, hm]
  · intro tbl a m t ha hm hl ht
    intro hc
    rw [show get_prev_scene_text tbl a 1 =
      (lookupFinal tbl (a - 1) m).getD "" from by
        simp [get_prev_scene_text, ha, hm]] at hc
    rw [hl] at hc
    exact ht hc
  · intro tbl a ha
    simp [get_prev_scene_text, ha]
  · intro tbl a
    simp [get_prev_scene_text]
  · intro tbl a ha hm
    simp [get_prev_scene_text, ha, hm]

/-- C5 witness: with finalized rows (1,1) and (1,2), lookup for (2,1) yields
the text of (1,2) — the max scene of act 1 — and is non-empty; lookup for
(1,3) yields the text of (1,2). -/
theorem C5_witness :
    get_prev_scene_text [⟨1, 1, "alpha"⟩, ⟨1, 2, "omega"⟩] 2 1 = "omega"
    ∧ get_prev_scene_text [⟨1, 1, "alpha"⟩, ⟨1, 2, "omega"⟩] 2 1 ≠ ""
    ∧ get_prev_scene_text [⟨1, 1, "alpha"⟩, ⟨1, 2, "omega"⟩] 1 3 = "omega" := by
  obtain ⟨h1, h2, h3, h4, h5, h6⟩ := C5_prev_scene_resolution
  refine ⟨?_, ?_, ?_⟩
  · rw [h2 [⟨1, 1, "alpha"⟩, ⟨1, 2, "omega"⟩] 2 2 (by decide) (by decide)]
    decide
  · exact h3 [⟨1, 1, "alpha"⟩, ⟨1, 2, "omega"⟩] 2 2 "omega" (by decide)
      (by decide) (by decide) (by decide)
  · rw [h1 [⟨1, 1, "alpha"⟩, ⟨1, 2, "omega"⟩] 1 3 (by decide)]
    decide

theorem string_data_eq_nil {s : String} (h : s.data = []) : s = "" := by
  cases s
  subst h
  rfl

/-- C6: the previous-scene bounding function maps empty input to the
placeholder, leaves non-empty input of at most 2500 characters unchanged,
hard-truncates longer input at the 2500-character cap with the trailing
ellipsis marker, and is idempotent. -/
theorem C6_bounding_function_spec :
    summarize_prev_if_long "" = noPrevPlaceholder
    ∧ (∀ s : String, s ≠ "" → s.length ≤ prevCap →
        summarize_prev_if_long s = s)
    ∧ (∀ s : String, prevCap < s.length →
        summarize_prev_if_long s = ⟨s.data.take prevCap ++ ellipsisMarker.data⟩)
    ∧ (∀ s : String,
        summarize_prev_if_long (summarize_prev_if_long s) =
          summarize_prev_if_long s) := by
  have hshort : ∀ s : String, s.data ≠ [] → s.data.length ≤ prevCap →
      summarize_prev_if_long s = s := by
    intro s h0 h1
    have h1' : s.length ≤ prevCap := h1
    simp [summarize_prev_if_long, h0, h1, h1']
  have hlong : ∀ s : String, prevCap < s.data.length →
      summarize_prev_if_long s = ⟨s.data.take prevCap ++ ellipsisMarker.data⟩ := by
    intro s h1
    have h0 : s.data ≠ [] := by
      intro hc
      rw [hc] at h1
      simp [prevCap] at h1
    have h1a : ¬ s.data.length ≤ prevCap := Nat.not_le.mpr h1
    have h1b : ¬ s.length ≤ prevCap := h1a
    simp [summarize_prev_if_long, h0, h1a, h1b]
  refine ⟨by decide, ?_, ?_, ?_⟩
  · intro s h0 h1
    exact hshort s (fun hc => h0 (string_data_eq_nil hc)) h1
  · intro s h1
    exact hlong s h1
  · intro s
    by_cases h0 : s.data = []
    · have he : summarize_prev_if_long s = noPrevPlaceholder := by
        simp [summarize_prev_if_long, h0]
      rw [he]
      decide
    · by_cases h1 : s.data.length ≤ prevCap
      · rw [hshort s h0 h1, hshort s h0 h1]
      · have h1' : prevCap < s.data.length := Nat.not_le.mp h1
        rw [hlong s h1']
        have hdata : ((⟨s.data.take prevCap ++ ellipsisMarker.data⟩ :
            String)).data = s.data.take prevCap ++ ellipsisMarker.data := rfl
        have hlen : (s.data.take prevCap).length = prevCap := by
          rw [List.length_take]
          omega
        have hlen2 : prevCap <
            (s.data.take prevCap ++ ellipsisMarker.data).length := by
          rw [List.length_append, hlen]
          simp [ellipsisMarker, prevCap]
        have := hlong ⟨s.data.take prevCap ++ ellipsisMarker.data⟩
          (by show prevCap <
              (s.data.take prevCap ++ ellipsisMarker.data).length
              exact hlen2)
        rw [this, hdata]
        have htake : (s.data.take prevCap ++ ellipsisMarker.data).take prevCap =
            s.data.take prevCap := by
          rw [List.take_append_eq_append_take]
          rw [hlen, Nat.sub_self, List.take_zero, List.append_nil]
          rw [show (s.data.take prevCap).take prevCap =
            (s.data.take prevCap).take (s.data.take prevCap).length from by
              rw [hlen]]
          rw [List.take_length]
        rw [htake]

/-- The 2501-character input used by the C6 witness. -/
def longText : String := ⟨List.replicate 2501 'x'⟩

/-- C6 witness: the bounding function keeps the short string "hi", truncates
the 2501-character input at the cap with the trailing marker, and both are
fixed points of a second application. -/
theorem C6_witness :
    summarize_prev_if_long "hi" = "hi"
    ∧ summarize_prev_if_long longText =
      ⟨longText.data.take prevCap ++ ellipsisMarker.data⟩ := by
  obtain ⟨h1, h2, h3, h4⟩ := C6_bounding_function_spec
  refine ⟨h2 "hi" (by decide) (by decide), h3 longText ?_⟩
  show prevCap < (List.replicate 2501 'x').length
  rw [List.length_replicate]
  simp [prevCap]

/-- C7: the scene-context digest consists of exactly the non-empty
descriptive fields of the scene in the fixed field order — it equals the
filtered field list, contains no blank line, is a sublist of the full field
list (so the order is preserved and nothing else is added), and the digest
string intercalates those lines with newlines. -/
theorem C7_scene_context_digest (sc : Scene) :
    contextLines sc = (sceneFields sc).filter (fun f => !(f == ""))
    ∧ "" ∉ contextLines sc
    ∧ List.Sublist (contextLines sc) (sceneFields sc)
    ∧ synthesizeSceneContext sc =
      String.intercalate "\n" ((sceneFields sc).filter (fun f => !(f == ""))) := by
  have h1 : contextLines sc = (sceneFields sc).filter (fun f => !(f == "")) := by
    simp only [sceneFields, optLine_eq_filter, List.filter_nil,
      List.append_nil]
    simp [contextLines, List.append_assoc]
  refine ⟨h1, ?_, ?_, ?_⟩
  · rw [h1]
    intro h
    have := List.mem_filter.mp h
    simp at this
  · rw [h1]
    exact List.filter_sublist _
  · rw [synthesizeSceneContext, h1]

/-- C7 witness: the digest lines of the concrete scene (1,1) are exactly its
four non-empty fields, in order, with the empty fields omitted. -/
theorem C7_witness :
    contextLines scA = ["Opening", "Cafe", "setup", "they meet"]
    ∧ "" ∉ contextLines scA := by
  obtain ⟨h1, h2, h3, h4⟩ := C7_scene_context_digest scA
  refine ⟨?_, h2⟩
  rw [h1]
  decide

/-- C8 counterexample: two successive `save_scene_draft` calls for the same
scene record version 1 both times — the second draft's version is not
strictly larger than the first's, so versions do not increment per scene. -/
theorem C8_counterexample :
    ((save_scene_draft (save_scene_draft [] scA "first text" "Cinematic")
      scA "second text" "Cinematic").map (·.version)) = [1, 1]
    ∧ ¬ (1 : Nat) < 1 := by
  exact ⟨by decide, by decide⟩

/-- C8 (amended): every call of `save_scene_draft` appends exactly one new
row — all existing rows are kept unchanged, none is updated or deleted — and
the version recorded on the new row is the constant 1 for every draft this
operation saves (versions increase only through the separate
`create_new_version` path). -/
theorem C8_save_draft_insert_only_constant_version
    (tbl : List DraftRow) (sc : Scene) (content styleName : String) :
    save_scene_draft tbl sc content styleName =
      tbl ++ [⟨maxDraftId tbl + 1, 1, draftTitle sc, content,
        wordCount content, "first_draft", "Style: " ++ styleName⟩]
    ∧ (save_scene_draft tbl sc content styleName).take tbl.length = tbl
    ∧ (∀ r ∈ save_scene_draft tbl sc content styleName, r ∈ tbl ∨
        r.version = 1) := by
  refine ⟨rfl, ?_, ?_⟩
  · show (tbl ++ [_]).take tbl.length = tbl
    rw [List.take_append_eq_append_take, Nat.sub_self, List.take_zero,
      List.append_nil, List.take_length]
  · intro r hr
    rcases List.mem_append.mp hr with h | h
    · exact Or.inl h
    · rw [List.mem_singleton] at h
      subst h
      exact Or.inr rfl

/-- C8 (amended) witness: saving a draft into the empty table appends a
single row carrying version 1, and every row of the result is either an old
row or carries version 1. -/
theorem C8_witness :
    save_scene_draft [] scA "one two" "Cinematic" =
      [⟨maxDraftId [] + 1, 1, draftTitle scA, "one two",
        wordCount "one two", "first_draft", "Style: " ++ "Cinematic"⟩]
    ∧ ∀ r ∈ save_scene_draft [] scA "one two" "Cinematic",
        r ∈ ([] : List DraftRow) ∨ r.version = 1 := by
  obtain ⟨h1, h2, h3⟩ :=
    C8_save_draft_insert_only_constant_version [] scA "one two" "Cinematic"
  exact ⟨h1, h3⟩

/-- C9: the prompt builder is deterministic — two invocations of
`build_scene_prompt` whose thirteen inputs are pairwise equal produce equal
prompt strings; the builder itself introduces no randomness. -/
theorem C9_prompt_builder_deterministic
    (md md2 : List (String × String)) (cs cs2 : List Character)
    (sc sc2 : Scene) (bc bc2 : List (String × String))
    (snap snap2 prev prev2 nxt nxt2 style style2 tone tone2 fmt fmt2
      egg egg2 : String) (mn mn2 mx mx2 : Nat)
    (h1 : md = md2) (h2 : cs = cs2) (h3 : sc = sc2) (h4 : bc = bc2)
    (h5 : snap = snap2) (h6 : prev = prev2) (h7 : nxt = nxt2)
    (h8 : style = style2) (h9 : tone = tone2) (h10 : fmt = fmt2)
    (h11 : egg = egg2) (h12 : mn = mn2) (h13 : mx = mx2) :
    build_scene_prompt md cs sc bc snap prev nxt style tone fmt egg mn mx =
      build_scene_prompt md2 cs2 sc2 bc2 snap2 prev2 nxt2 style2 tone2 fmt2
        egg2 mn2 mx2 := by
  subst h1 h2 h3 h4 h5 h6 h7 h8 h9 h10 h11 h12 h13
  rfl

/-- C9 witness: the determinism theorem applied at one concrete input set. -/
theorem C9_witness :
    build_scene_prompt [("pov", "first")] [] scA [("books", "idea")]
      "snap" "prev" "next scene" "cinematic" "witty" "prose" "" 700 900 =
    build_scene_prompt [("pov", "first")] [] scA [("books", "idea")]
      "snap" "prev" "next scene" "cinematic" "witty" "prose" "" 700 900 := by
  exact C9_prompt_builder_deterministic _ _ _ _ _ _ _ _ _ _ _ _ _ _ _ _ _ _
    _ _ _ _ _ _ _ _ rfl rfl rfl rfl rfl rfl rfl rfl rfl rfl rfl rfl rfl

theorem updateLatestDraft_getElem (tbl : List DraftRow) (nc sfx : String)
    (i : Nat) (hi : i < tbl.length) :
    (updateLatestDraft tbl nc sfx)[i]? =
      some (if tbl[i].id = maxDraftId tbl then
        { tbl[i] with content := nc, notes := tbl[i].notes ++ sfx }
      else tbl[i]) := by
  unfold updateLatestDraft
  rw [List.getElem?_map, List.getElem?_eq_getElem hi]
  rfl

/-- C10: `request_revisions` and `manual_edit_session` apply their UPDATE to
the drafts row with the maximum id, regardless of which draft was selected:
running `edit_existing_draft` on an older draft rewrites the newest row's
content (with text edited from the selected draft's content) and appends to
its notes, while the selected row and every other row are left unchanged. -/
theorem C10_update_targets_newest_draft_row
    (tbl : List DraftRow) (did : Nat) (d : DraftRow)
    (inputs : List String)
    (hfind : tbl.find? (fun r => r.id == did) = some d) :
    ((edit_existing_draft tbl did inputs).length = tbl.length)
    ∧ (∀ i (hi : i < tbl.length), tbl[i].id ≠ maxDraftId tbl →
        (edit_existing_draft tbl did inputs)[i]? = some tbl[i])
    ∧ (∀ i (hi : i < tbl.length), tbl[i].id = maxDraftId tbl →
        (edit_existing_draft tbl did inputs)[i]? =
          some { tbl[i] with
            content := (manualEdit d.content inputs),
            notes := tbl[i].notes ++ "\n\nManually edited" })
    ∧ (∀ (oracle : String → String) (tbl2 : List DraftRow)
        (orig rn : String) (i : Nat) (hi : i < tbl2.length),
        (tbl2[i].id ≠ maxDraftId tbl2 →
          (request_revisions oracle tbl2 orig rn)[i]? = some tbl2[i])
        ∧ (tbl2[i].id = maxDraftId tbl2 →
          (request_revisions oracle tbl2 orig rn)[i]? =
            some { tbl2[i] with
              content := oracle (revisionPrompt orig rn),
              notes := tbl2[i].notes ++ ("\n\nRevision: " ++ rn) })) := by
  have hedit : edit_existing_draft tbl did inputs =
      updateLatestDraft tbl (manualEdit d.content inputs)
        "\n\nManually edited" := by
    unfold edit_existing_draft
    rw [hfind]
    rfl
  refine ⟨?_, ?_, ?_, ?_⟩
  · rw [hedit]
    unfold updateLatestDraft
    exact List.length_map _ _
  · intro i hi h
    rw [hedit, updateLatestDraft_getElem tbl _ _ i hi, if_neg h]
  · intro i hi h
    rw [hedit, updateLatestDraft_getElem tbl _ _ i hi, if_pos h]
  · intro oracle tbl2 orig rn i hi
    constructor
    · intro h
      rw [request_revisions, updateLatestDraft_getElem tbl2 _ _ i hi,
        if_neg h]
    · intro h
      rw [request_revisions, updateLatestDraft_getElem tbl2 _ _ i hi,
        if_pos h]

/-- The two-row drafts table of the C10 witness: row id 1 is the older
draft, row id 2 the newest. -/
def draftsW : List DraftRow :=
  [⟨1, 1, "T1", "old one", 2, "first_draft", "n1"⟩,
   ⟨2, 1, "T2", "old two", 2, "first_draft", "n2"⟩]

/-- C10 witness: editing the older draft (id 1) leaves its own row
untouched and rewrites the newest row (id 2) with content edited from the
selected draft's text plus the manual-edit note. -/
theorem C10_witness :
    (edit_existing_draft draftsW 1 ["edited line"])[0]? =
      some ⟨1, 1, "T1", "old one", 2, "first_draft", "n1"⟩
    ∧ (edit_existing_draft draftsW 1 ["edited line"])[1]? =
      some ⟨2, 1, "T2", manualEdit "old one" ["edited line"], 2,
        "first_draft", "n2\n\nManually edited"⟩ := by
  obtain ⟨h1, h2, h3, h4⟩ := C10_update_targets_newest_draft_row draftsW 1
    ⟨1, 1, "T1", "old one", 2, "first_draft", "n1"⟩ ["edited line"]
    (by decide)
  exact ⟨h2 0 (by decide) (by decide), h3 1 (by decide) (by decide)⟩

end Lizzy
